import Mathlib

/-!
Verification of the relative-placement construction core of this repository
(`src/agent/library/cane.js` and `src/agent/library/rail.js`).

The two source files are shallowly embedded below.  Coordinates are modelled
as exact rationals (`ℚ`); the JavaScript environment object `bot` becomes an
explicit record `MineBot` whose fields are the capability oracles the code calls
(`blockAt`, `bot.equip`, `bot.placeBlock`, ...).  A fallible capability call
is an oracle returning `Except JsErr Unit`; a `try/catch` in the source is
the corresponding `match` on that oracle.  Each primitive returns the
JavaScript completion of the async function (`Outcome`: a returned value or a
propagated exception), the updated `bot` (only `bot.origin` is ever written),
and the ordered list of observable effects (log lines and capability calls).
-/

/-- A JavaScript error value: `e.message` may be absent (`undefined`). -/
structure JsErr where
  message : Option String
deriving DecidableEq, Repr

/-- A 3-component vector, as `vec3`'s `Vec3` with exact coordinates. -/
structure Vec3 where
  x : ℚ
  y : ℚ
  z : ℚ
deriving DecidableEq, Repr

/-- Componentwise addition (`Vec3.prototype.add` / `plus`). -/
def Vec3.add (a b : Vec3) : Vec3 := ⟨a.x + b.x, a.y + b.y, a.z + b.z⟩

/-- Scalar multiplication (`Vec3.prototype.scaled`). -/
def Vec3.scaled (v : Vec3) (k : ℚ) : Vec3 := ⟨v.x * k, v.y * k, v.z * k⟩

/-- Componentwise floor (`Vec3.prototype.floored`). -/
def Vec3.floored (v : Vec3) : Vec3 := ⟨(⌊v.x⌋ : ℤ), (⌊v.y⌋ : ℤ), (⌊v.z⌋ : ℤ)⟩

/-- A world block as far as this code observes it: its name and position. -/
structure Block where
  name : String
  position : Vec3
deriving DecidableEq, Repr

/-- The origin frame stored on the bot by `setOrigin`: position plus yaw. -/
structure Origin where
  position : Vec3
  yaw : ℚ
deriving DecidableEq, Repr

/-- A JavaScript value as returned by the primitives: a boolean, or
`undefined` for the functions that fall off the end without `return x`. -/
inductive JsValue where
  | bool (b : Bool)
  | undef
deriving DecidableEq, Repr

/-- Completion of an async function: a resolved value or a rejection. -/
inductive Outcome where
  | ret (v : JsValue)
  | threw (e : JsErr)
deriving DecidableEq, Repr

/-- JavaScript truthiness of the values the code branches on. -/
def JsValue.truthy : JsValue → Bool
  | .bool b => b
  | .undef => false

/-- Whether an outcome is a propagated exception. -/
def Outcome.isThrown : Outcome → Bool
  | .threw _ => true
  | .ret _ => false

/-- Whether an outcome is a returned boolean. -/
def Outcome.isBool : Outcome → Bool
  | .ret (.bool _) => true
  | _ => false

/-- One log line, one constructor per `log(bot, ...)` call site, carrying the
dynamic data interpolated into the message. -/
inductive LogEvent where
  | equipped (item hand : String)
  | equipError (item hand : String) (e : JsErr)
  | noItemFound (item : String)
  | originNotSet
  | originSet (pos : Vec3) (yaw : ℚ)
  | noSupportBlock (pos : Vec3) (item : String)
  | cannotEquip (item : String)
  | lookingToFace (d : String)
  | invalidFacing (d : String)
  | occupiedWarning (name : String)
  | placedOk (item : String) (pos : Vec3) (dir : Vec3)
  | placedBenign (item : String) (msg : Option String)
  | placeAttemptFailed (attempt : Nat) (item : String) (msg : Option String)
  | pouringAt (dx dy dz : ℚ)
  | equippedWaterBucket
  | cannotEquipWaterBucket
  | lookingAtPoint (p : Vec3)
  | pouredOk
  | pourError (e : JsErr)
  | goingTo (dx dy dz : ℚ) (world : Vec3)
  | togglingAt (blockType : String) (x y z : ℚ)
  | activatedOk (blockType : String) (pos : Vec3)
  | activateError (pos : Vec3) (msg : Option String)
  | toggleNotFound (blockType : String) (x y z : ℚ) (world : Vec3) (found : Option String)
  | digListStart
  | diggingAt (rx ry rz : ℚ) (world : Vec3)
  | digError (pos : Vec3) (msg : Option String)
  | cannotDig (pos : Vec3) (found : Option String)
  | checkingItems
  | giveItem (item : String) (haveAmt needAmt giveAmt : Int)
  | enoughItem (item : String)
  | acquireDone
deriving DecidableEq, Repr

/-- One observable effect: a log line or a capability call, in program order. -/
inductive Effect where
  | logMsg (m : LogEvent)
  | equipCall (item hand : String)
  | blockAtQuery (pos : Vec3)
  | placeBlockCall (pos : Vec3) (dir : Vec3)
  | activateBlockCall (pos : Vec3)
  | activateItemCall
  | lookAtCall (p : Vec3)
  | digCall (pos : Vec3)
  | chatCall (msg : String)
  | goToPositionCall (p : Vec3)
  | waitCall (ms : Nat)
deriving DecidableEq, Repr

/-- The bot: its mutable origin, its entity state, and the behaviour of every
capability the embedded code calls.  Fallible capabilities are oracles
returning `Except JsErr Unit`; `placeOutcome` is indexed by the attempt
number because the retry loop calls `bot.placeBlock` repeatedly. -/
structure MineBot where
  origin : Option Origin
  entityPosition : Vec3
  entityYaw : ℚ
  entityHeight : ℚ
  findItem : String → Bool
  inventoryCounts : String → Option Int
  blockAt : Vec3 → Option Block
  canDigBlock : Block → Bool
  equipOutcome : String → String → Except JsErr Unit
  placeOutcome : Nat → Except JsErr Unit
  activateOutcome : Vec3 → Except JsErr Unit
  activateItemOutcome : Except JsErr Unit
  digOutcome : Vec3 → Except JsErr Unit
  goToOutcome : Vec3 → Bool

/-- `pat.isPrefixOf s` lifted to a substring test, as JavaScript
`s.includes(pat)` (scans every suffix of `s`). -/
def seqIncludes (pat : List Char) : List Char → Bool
  | [] => pat.isPrefixOf []
  | c :: rest => pat.isPrefixOf (c :: rest) || seqIncludes pat rest

/-- JavaScript `s.includes(pat)` on strings. -/
def strIncludes (s pat : String) : Bool := seqIncludes pat.toList s.toList

/-- The benign-error test `e.message && e.message.includes("blockUpdate")`
from the placement retry loop (cane.js:62, rail.js:82); an absent or empty
message is falsy in JavaScript, short-circuiting to `false`. -/
def includesBlockUpdate : Option String → Bool
  | none => false
  | some m => !(m == "") && strIncludes m "blockUpdate"

/-- `equipItem(bot, itemName, hand)` (cane.js:6-21; rail.js:6-21 is textually
identical): look the item up, and if present try `bot.equip`, returning
`true`/`false`; the `catch` swallows an equip rejection.  The function never
mutates the bot, so only the outcome and the effects are returned. -/
def equipItem (bot : MineBot) (itemName hand : String) : Outcome × List Effect :=
  if bot.findItem itemName then
    match bot.equipOutcome itemName hand with
    | .ok _ =>
        (.ret (.bool true),
         [.equipCall itemName hand, .logMsg (.equipped itemName hand)])
    | .error e =>
        (.ret (.bool false),
         [.equipCall itemName hand, .logMsg (.equipError itemName hand e)])
  else
    (.ret (.bool false), [.logMsg (.noItemFound itemName)])

/-- `setOrigin(bot)` (cane.js:116-127, rail.js:136-147): snapshot the entity
position and yaw into `bot.origin` and return `true`. -/
def setOrigin (bot : MineBot) : Outcome × MineBot × List Effect :=
  let o : Origin := { position := bot.entityPosition, yaw := bot.entityYaw }
  (.ret (.bool true), { bot with origin := some o },
   [.logMsg (.originSet o.position o.yaw)])

/-- The lazy-init prologue `if (!bot.origin) { log(...); await setOrigin(bot) }`
shared by every coordinate-resolving primitive; returns the origin now known
to exist, the (possibly updated) bot, and the prologue's effects. -/
def ensureOrigin (bot : MineBot) : Origin × MineBot × List Effect :=
  match bot.origin with
  | some o => (o, bot, [])
  | none =>
      let o : Origin := { position := bot.entityPosition, yaw := bot.entityYaw }
      (o, { bot with origin := some o },
       [.logMsg .originNotSet, .logMsg (.originSet o.position o.yaw)])

/-- `walkTo(bot, dx, dy, dz)` (cane.js:129-150, rail.js:149-170): resolve the
offset against the origin and delegate to `goToPosition`. -/
def walkTo (bot0 : MineBot) (dx dy dz : ℚ) : Outcome × MineBot × List Effect :=
  let r := ensureOrigin bot0
  let origin := r.1
  let bot := r.2.1
  let targetPos : Vec3 :=
    ⟨origin.position.x + dx, origin.position.y + dy, origin.position.z - dz⟩
  (.ret (.bool (bot.goToOutcome targetPos)), bot,
   r.2.2 ++ [.logMsg (.goingTo dx dy dz targetPos), .goToPositionCall targetPos])

/-- The placement retry loop `for (let retry = 0; retry < maxRetries; retry++)`
(cane.js:56-70, rail.js:76-90), written as a countdown on the number of
attempts left, with `retry` the current attempt index.  Each iteration calls
`bot.placeBlock(block, directionVec)`: success returns `true`; a rejection
whose message contains the benign signature returns `true`; any other
rejection is logged and the loop continues; falling off the loop yields the
function's trailing `return false`. -/
def placeRetry (bot : MineBot) (itemName : String) (block : Block)
    (directionVec : Vec3) : Nat → Nat → Outcome × List Effect
  | 0, _ => (.ret (.bool false), [])
  | n + 1, retry =>
      match bot.placeOutcome retry with
      | .ok _ =>
          (.ret (.bool true),
           [.placeBlockCall block.position directionVec,
            .logMsg (.placedOk itemName block.position directionVec)])
      | .error e =>
          if includesBlockUpdate e.message then
            (.ret (.bool true),
             [.placeBlockCall block.position directionVec,
              .logMsg (.placedBenign itemName e.message)])
          else
            let rest := placeRetry bot itemName block directionVec n (retry + 1)
            (rest.1,
             .placeBlockCall block.position directionVec ::
               .logMsg (.placeAttemptFailed (retry + 1) itemName e.message) ::
                 rest.2)

namespace cane

/-- `placeOnBlock(bot, itemName, coords, directionVec)` (cane.js:23-71):
ensure the origin, resolve the offset, look up the support block (failing
fast if absent), equip the item (failing fast on equip failure), then run the
3-attempt placement loop.  The `skipAirCheck` pre-check is embedded with its
literal `true`, making the occupancy check dead code as in the source. -/
def placeOnBlock (bot0 : MineBot) (itemName : String) (coords : ℚ × ℚ × ℚ)
    (directionVec : Vec3) : Outcome × MineBot × List Effect :=
  let r0 := ensureOrigin bot0
  let origin := r0.1
  let bot := r0.2.1
  let pre := r0.2.2
  let absX := origin.position.x + coords.1
  let absY := origin.position.y + coords.2.1
  let absZ := origin.position.z - coords.2.2
  let queryPos : Vec3 := ⟨absX, absY, absZ⟩
  let eff0 := pre ++ [Effect.blockAtQuery queryPos]
  match bot.blockAt queryPos with
  | none =>
      (.ret (.bool false), bot, eff0 ++ [.logMsg (.noSupportBlock queryPos itemName)])
  | some block =>
      let eq := equipItem bot itemName "hand"
      match eq.1 with
      | .threw e => (.threw e, bot, eff0 ++ eq.2)
      | .ret v =>
          if v.truthy then
            let skipAirCheck := true
            let targetPos : Vec3 :=
              ⟨absX + directionVec.x, absY + directionVec.y, absZ + directionVec.z⟩
            let airEff : List Effect :=
              if skipAirCheck then [] else [Effect.blockAtQuery targetPos]
            let blocked : Bool :=
              if skipAirCheck then false
              else
                match bot.blockAt targetPos with
                | some tb => tb.name != "air"
                | none => false
            if blocked then
              let tbName :=
                match bot.blockAt targetPos with
                | some tb => tb.name
                | none => ""
              (.ret (.bool false), bot,
               eff0 ++ eq.2 ++ airEff ++ [.logMsg (.occupiedWarning tbName)])
            else
              let loop := placeRetry bot itemName block directionVec 3 0
              (loop.1, bot, eff0 ++ eq.2 ++ airEff ++ loop.2)
          else
            (.ret (.bool false), bot, eff0 ++ eq.2 ++ [.logMsg (.cannotEquip itemName)])

end cane

/-- The `switch (facingDirection)` table of rail.js:48-56: the unit vector
added to the head position to obtain the look target, or `none` for the
`default` branch (invalid direction). -/
def facingVec : String → Option Vec3
  | "north" => some ⟨0, 0, -1⟩
  | "south" => some ⟨0, 0, 1⟩
  | "east" => some ⟨1, 0, 0⟩
  | "west" => some ⟨-1, 0, 0⟩
  | "up" => some ⟨0, 1, 0⟩
  | "down" => some ⟨0, -1, 0⟩
  | _ => none

namespace rail

/-- `placeOnBlock(bot, itemName, coords, directionVec, facingDirection)`
(rail.js:23-91): as the cane.js version, plus the facing block between equip
and placement — when `facingDirection` is given (non-null, non-empty, so
truthy), compute a look target one unit from head height and orient, waiting
200ms; an unknown direction only logs. -/
def placeOnBlock (bot0 : MineBot) (itemName : String) (coords : ℚ × ℚ × ℚ)
    (directionVec : Vec3) (facingDirection : Option String) :
    Outcome × MineBot × List Effect :=
  let r0 := ensureOrigin bot0
  let origin := r0.1
  let bot := r0.2.1
  let pre := r0.2.2
  let absX := origin.position.x + coords.1
  let absY := origin.position.y + coords.2.1
  let absZ := origin.position.z - coords.2.2
  let queryPos : Vec3 := ⟨absX, absY, absZ⟩
  let eff0 := pre ++ [Effect.blockAtQuery queryPos]
  match bot.blockAt queryPos with
  | none =>
      (.ret (.bool false), bot, eff0 ++ [.logMsg (.noSupportBlock queryPos itemName)])
  | some block =>
      let eq := equipItem bot itemName "hand"
      match eq.1 with
      | .threw e => (.threw e, bot, eff0 ++ eq.2)
      | .ret v =>
          if v.truthy then
            let faceEff : List Effect :=
              match facingDirection with
              | none => []
              | some fd =>
                  if fd == "" then []
                  else
                    let headPos := bot.entityPosition.add ⟨0, bot.entityHeight, 0⟩
                    match facingVec fd with
                    | some d =>
                        [.logMsg (.lookingToFace fd),
                         .lookAtCall (headPos.add d), .waitCall 200]
                    | none => [.logMsg (.invalidFacing fd)]
            let skipAirCheck := true
            let targetPos : Vec3 :=
              ⟨absX + directionVec.x, absY + directionVec.y, absZ + directionVec.z⟩
            let airEff : List Effect :=
              if skipAirCheck then [] else [Effect.blockAtQuery targetPos]
            let blocked : Bool :=
              if skipAirCheck then false
              else
                match bot.blockAt targetPos with
                | some tb => tb.name != "air"
                | none => false
            if blocked then
              let tbName :=
                match bot.blockAt targetPos with
                | some tb => tb.name
                | none => ""
              (.ret (.bool false), bot,
               eff0 ++ eq.2 ++ faceEff ++ airEff ++ [.logMsg (.occupiedWarning tbName)])
            else
              let loop := placeRetry bot itemName block directionVec 3 0
              (loop.1, bot, eff0 ++ eq.2 ++ faceEff ++ airEff ++ loop.2)
          else
            (.ret (.bool false), bot, eff0 ++ eq.2 ++ [.logMsg (.cannotEquip itemName)])

/-- `toggleBlock(bot, blockType, x, y, z)` (rail.js:253-278): resolve and
floor the absolute coordinate, and activate the occupying block only when its
name is exactly `blockType`; an activation rejection is caught and logged;
the function has no `return` statement, so it resolves to `undefined`. -/
def toggleBlock (bot0 : MineBot) (blockType : String) (x y z : ℚ) :
    Outcome × MineBot × List Effect :=
  let pre0 : List Effect := [.logMsg (.togglingAt blockType x y z)]
  let r0 := ensureOrigin bot0
  let origin := r0.1.position
  let bot := r0.2.1
  let pos : Vec3 := (⟨origin.x + x, origin.y + y, origin.z - z⟩ : Vec3).floored
  let eff0 := pre0 ++ r0.2.2 ++ [Effect.blockAtQuery pos]
  match bot.blockAt pos with
  | some block =>
      if block.name == blockType then
        match bot.activateOutcome pos with
        | .ok _ =>
            (.ret .undef, bot,
             eff0 ++ [.activateBlockCall pos, .logMsg (.activatedOk blockType pos)])
        | .error e =>
            (.ret .undef, bot,
             eff0 ++ [.activateBlockCall pos, .logMsg (.activateError pos e.message)])
      else
        (.ret .undef, bot,
         eff0 ++ [.logMsg (.toggleNotFound blockType x y z pos (some block.name))])
  | none =>
      (.ret .undef, bot,
       eff0 ++ [.logMsg (.toggleNotFound blockType x y z pos none)])

/-- The body of one iteration of the `for (const offset of blocks_to_dig)`
loop of `dig` (rail.js:289-309): resolve and floor the cell, and dig it only
when a block is there, it is diggable, and it is not air; a dig rejection is
caught and logged. -/
def digStep (bot : MineBot) (origin : Vec3) (offset : ℚ × ℚ × ℚ) : List Effect :=
  let pos : Vec3 :=
    (⟨origin.x + offset.1, origin.y + offset.2.1, origin.z - offset.2.2⟩ : Vec3).floored
  Effect.blockAtQuery pos ::
    match bot.blockAt pos with
    | some block =>
        if bot.canDigBlock block && block.name != "air" then
          Effect.logMsg (.diggingAt offset.1 offset.2.1 offset.2.2 pos) ::
            Effect.digCall pos ::
              match bot.digOutcome pos with
              | .ok _ => []
              | .error e => [.logMsg (.digError pos e.message)]
        else
          [.logMsg (.cannotDig pos (some block.name))]
    | none => [.logMsg (.cannotDig pos none)]

/-- `dig(bot, blocks_to_dig)` (rail.js:280-310): process every offset of the
list independently in order; no `return` statement, so it resolves to
`undefined`. -/
def dig (bot0 : MineBot) (blocksToDig : List (ℚ × ℚ × ℚ)) :
    Outcome × MineBot × List Effect :=
  let pre0 : List Effect := [.logMsg .digListStart]
  let r0 := ensureOrigin bot0
  let origin := r0.1.position
  let bot := r0.2.1
  (.ret .undef, bot, pre0 ++ r0.2.2 ++ blocksToDig.flatMap (digStep bot origin))

end rail

/-- `pourWaterInHole(bot, dx, dy, dz)` (cane.js:73-114; rail.js:93-134 is
textually identical): compute the look-at point from fixed world axes
(`rightVec = (1,0,0)`, `forwardVec = (0,0,-1)`; the stored yaw is read into a
local but never used), then inside one `try`: equip the water bucket (a
falsy result returns `false`), orient, wait, and activate the held item; any
rejection inside the `try` is caught and reported as `false`. -/
def pourWaterInHole (bot0 : MineBot) (dx dy dz : ℚ) : Outcome × MineBot × List Effect :=
  let pre0 : List Effect := [.logMsg (.pouringAt dx dy dz)]
  let r0 := ensureOrigin bot0
  let origin := r0.1
  let bot := r0.2.1
  let forwardVec : Vec3 := ⟨0, 0, -1⟩
  let rightVec : Vec3 := ⟨1, 0, 0⟩
  let lookAtPoint :=
    ((origin.position.add (rightVec.scaled dx)).add ⟨0, dy, 0⟩).add
      (forwardVec.scaled dz)
  let eff0 := pre0 ++ r0.2.2
  let eq := equipItem bot "water_bucket" "hand"
  match eq.1 with
  | .threw e =>
      (.ret (.bool false), bot, eff0 ++ eq.2 ++ [.logMsg (.pourError e)])
  | .ret v =>
      if v.truthy then
        match bot.activateItemOutcome with
        | .ok _ =>
            (.ret (.bool true), bot,
             eff0 ++ eq.2 ++
               [.logMsg .equippedWaterBucket, .logMsg (.lookingAtPoint lookAtPoint),
                .lookAtCall lookAtPoint, .waitCall 200, .activateItemCall,
                .logMsg .pouredOk, .waitCall 1000])
        | .error e =>
            (.ret (.bool false), bot,
             eff0 ++ eq.2 ++
               [.logMsg .equippedWaterBucket, .logMsg (.lookingAtPoint lookAtPoint),
                .lookAtCall lookAtPoint, .waitCall 200, .activateItemCall,
                .logMsg (.pourError e)])
      else
        (.ret (.bool false), bot, eff0 ++ eq.2 ++ [.logMsg .cannotEquipWaterBucket])

/-- The chat command text `/give @s ${itemName} ${amountToGive}` sent by
`acquireItems`. -/
def giveCmd (itemName : String) (amountToGive : Int) : String :=
  "/give @s " ++ itemName ++ " " ++ toString amountToGive

/-- The `for (const itemName in requiredItems)` loop body of `acquireItems`
(cane.js:179-191, rail.js:194-206), lambda-lifted over the literal
required-item table: for each entry, read the live count (missing key is
`|| 0`), and when short, request exactly the shortfall and wait 200ms;
otherwise just log. -/
def acquireItemsLoop (bot : MineBot) (requiredItems : List (String × Int)) :
    List Effect :=
  requiredItems.flatMap fun entry =>
    let itemName := entry.1
    let requiredAmount := entry.2
    let currentAmount : Int := (bot.inventoryCounts itemName).getD 0
    if currentAmount < requiredAmount then
      let amountToGive := requiredAmount - currentAmount
      [.logMsg (.giveItem itemName currentAmount requiredAmount amountToGive),
       .chatCall (giveCmd itemName amountToGive), .waitCall 200]
    else
      [.logMsg (.enoughItem itemName)]

namespace cane

/-- The literal `requiredItems` table of cane.js:160-175, in source order. -/
def requiredItems : List (String × Int) :=
  [("chest", 2), ("hopper", 6), ("rail", 3), ("powered_rail", 2),
   ("oak_planks", 45), ("redstone_block", 2), ("grass_block", 17),
   ("water_bucket", 5), ("piston", 5), ("observer", 5), ("redstone", 5),
   ("sugar_cane", 5), ("glass", 21), ("hopper_minecart", 1)]

/-- `acquireItems(bot)` (cane.js:152-194): run the provisioning loop over the
literal table and return `true`. -/
def acquireItems (bot : MineBot) : Outcome × List Effect :=
  (.ret (.bool true),
   .logMsg .checkingItems :: acquireItemsLoop bot requiredItems ++ [.logMsg .acquireDone])

end cane

namespace rail

/-- The literal `requiredItems` table of rail.js:180-190, in source order. -/
def requiredItems : List (String × Int) :=
  [("rail", 1), ("smooth_stone", 8), ("piston", 2), ("observer", 1),
   ("redstone", 5), ("hopper_minecart", 1), ("redstone_torch", 2),
   ("repeater", 1), ("lever", 1)]

/-- `acquireItems(bot)` (rail.js:172-209): run the provisioning loop over the
literal table and return `true`. -/
def acquireItems (bot : MineBot) : Outcome × List Effect :=
  (.ret (.bool true),
   .logMsg .checkingItems :: acquireItemsLoop bot requiredItems ++ [.logMsg .acquireDone])

end rail

/-- The offset-resolution mapping the specification states: right adds to x,
up adds to y, forward subtracts from z.  Each primitive theorem below relates
the coordinate the embedded code computes to this formula. -/
def resolve (origin : Vec3) (r u f : ℚ) : Vec3 :=
  ⟨origin.x + r, origin.y + u, origin.z - f⟩

/-- The positions of the `bot.blockAt` queries in a trace, in order. -/
def blockQueries (l : List Effect) : List Vec3 :=
  l.filterMap fun e =>
    match e with
    | .blockAtQuery p => some p
    | _ => none

/-- The `bot.placeBlock` calls in a trace: support position and direction. -/
def placeCallsOf (l : List Effect) : List (Vec3 × Vec3) :=
  l.filterMap fun e =>
    match e with
    | .placeBlockCall p d => some (p, d)
    | _ => none

/-- The `bot.equip` calls in a trace: item and hand. -/
def equipCallsOf (l : List Effect) : List (String × String) :=
  l.filterMap fun e =>
    match e with
    | .equipCall i h => some (i, h)
    | _ => none

/-- The `bot.activateBlock` calls in a trace. -/
def activateCallsOf (l : List Effect) : List Vec3 :=
  l.filterMap fun e =>
    match e with
    | .activateBlockCall p => some p
    | _ => none

/-- The `bot.dig` calls in a trace. -/
def digCallsOf (l : List Effect) : List Vec3 :=
  l.filterMap fun e =>
    match e with
    | .digCall p => some p
    | _ => none

/-- The `bot.chat` calls in a trace. -/
def chatCallsOf (l : List Effect) : List String :=
  l.filterMap fun e =>
    match e with
    | .chatCall s => some s
    | _ => none

/-- The `goToPosition` targets in a trace. -/
def goToTargets (l : List Effect) : List Vec3 :=
  l.filterMap fun e =>
    match e with
    | .goToPositionCall p => some p
    | _ => none

/-- The `bot.lookAt` targets in a trace. -/
def lookTargets (l : List Effect) : List Vec3 :=
  l.filterMap fun e =>
    match e with
    | .lookAtCall p => some p
    | _ => none

/-- Whether a trace contains at least one log line. -/
def hasLogLine (l : List Effect) : Bool :=
  l.any fun e =>
    match e with
    | .logMsg _ => true
    | _ => false

/-- The retry loop emits `bot.placeBlock` calls and log lines only: it never
queries `bot.blockAt`. -/
theorem placeRetry_blockQueries (bot : MineBot) (itemName : String)
    (block : Block) (dir : Vec3) :
    ∀ n retry, blockQueries (placeRetry bot itemName block dir n retry).2 = [] := by
  intro n
  induction n with
  | zero => intro retry; simp [placeRetry, blockQueries]
  | succ n ih =>
      intro retry
      cases h : bot.placeOutcome retry with
      | ok u => simp [placeRetry, h, blockQueries]
      | error e =>
          by_cases hb : includesBlockUpdate e.message
          · simp [placeRetry, h, hb, blockQueries]
          · have := ih (retry + 1)
            simp only [blockQueries] at this ⊢
            simp [placeRetry, h, hb, this]

/-- `equipItem` emits `bot.equip` calls and log lines only. -/
theorem equipItem_blockQueries (bot : MineBot) (item hand : String) :
    blockQueries (equipItem bot item hand).2 = [] := by
  cases hf : bot.findItem item with
  | false => simp [equipItem, hf, blockQueries]
  | true =>
      cases he : bot.equipOutcome item hand with
      | ok u => simp [equipItem, hf, he, blockQueries]
      | error e => simp [equipItem, hf, he, blockQueries]

/-- Each dig-loop iteration queries exactly its own floored cell. -/
theorem digStep_blockQueries (bot : MineBot) (origin : Vec3) (o : ℚ × ℚ × ℚ) :
    blockQueries (rail.digStep bot origin o) =
      [(⟨origin.x + o.1, origin.y + o.2.1, origin.z - o.2.2⟩ : Vec3).floored] := by
  unfold rail.digStep
  cases hb : bot.blockAt
      ((⟨origin.x + o.1, origin.y + o.2.1, origin.z - o.2.2⟩ : Vec3).floored) with
  | none => simp [blockQueries, hb]
  | some block =>
      by_cases hd : bot.canDigBlock block && block.name != "air"
      · cases hdig : bot.digOutcome
            ((⟨origin.x + o.1, origin.y + o.2.1, origin.z - o.2.2⟩ : Vec3).floored) with
        | ok u => simp [blockQueries, hb, hd, hdig]
        | error e => simp [blockQueries, hb, hd, hdig]
      · simp [blockQueries, hb, hd]

/-- C1: for every origin frame positioned at `p` and every offset `(r, u, f)`,
the resolved absolute world coordinate is exactly `(p.x + r, p.y + u, p.z - f)`,
and this one mapping is what every offset-resolving primitive applies:
`placeOnBlock` (both files) queries the support block there, `walkTo`
navigates there, `toggleBlock` and `dig` query exactly the floored image of
that coordinate for each offset, and `pourWaterInHole` orients at it. -/
theorem resolve_mapping_all_primitives (bot : MineBot) (p : Vec3) (yw : ℚ)
    (item bt : String) (r u f : ℚ) (dir : Vec3) (fc : Option String)
    (offs : List (ℚ × ℚ × ℚ))
    (ho : bot.origin = some ⟨p, yw⟩) :
    resolve p r u f = ⟨p.x + r, p.y + u, p.z - f⟩
    ∧ blockQueries (cane.placeOnBlock bot item (r, u, f) dir).2.2 = [resolve p r u f]
    ∧ blockQueries (rail.placeOnBlock bot item (r, u, f) dir fc).2.2 = [resolve p r u f]
    ∧ goToTargets (walkTo bot r u f).2.2 = [resolve p r u f]
    ∧ blockQueries (rail.toggleBlock bot bt r u f).2.2 = [(resolve p r u f).floored]
    ∧ blockQueries (rail.dig bot offs).2.2 =
        offs.map (fun o => (resolve p o.1 o.2.1 o.2.2).floored)
    ∧ (bot.findItem "water_bucket" = true →
        bot.equipOutcome "water_bucket" "hand" = Except.ok () →
        lookTargets (pourWaterInHole bot r u f).2.2 = [resolve p r u f]) := by
  refine ⟨rfl, ?_, ?_, ?_, ?_, ?_, ?_⟩
  · cases hb : bot.blockAt (resolve p r u f) with
    | none =>
        simp only [resolve] at hb
        simp [cane.placeOnBlock, ensureOrigin, ho, resolve, hb, blockQueries]
    | some block =>
        cases hf : bot.findItem item with
        | false =>
            simp only [resolve] at hb
            simp [cane.placeOnBlock, ensureOrigin, ho, equipItem, hf, hb, resolve,
              JsValue.truthy, blockQueries]
        | true =>
            cases he : bot.equipOutcome item "hand" with
            | ok u =>
                have hq := placeRetry_blockQueries bot item block dir 3 0
                simp only [resolve] at hb
                simp only [blockQueries] at hq ⊢
                simp [cane.placeOnBlock, ensureOrigin, ho, equipItem, hf, he, hb, resolve,
                  JsValue.truthy, hq]
            | error e =>
                simp only [resolve] at hb
                simp [cane.placeOnBlock, ensureOrigin, ho, equipItem, hf, he, hb, resolve,
                  JsValue.truthy, blockQueries]
  · cases hb : bot.blockAt (resolve p r u f) with
    | none => simp only [resolve] at hb
              simp [rail.placeOnBlock, ensureOrigin, ho, resolve, hb, blockQueries]
    | some block =>
        cases hf : bot.findItem item with
        | false =>
            simp only [resolve] at hb
            simp [rail.placeOnBlock, ensureOrigin, ho, equipItem, hf, hb, resolve,
              JsValue.truthy, blockQueries]
        | true =>
            cases he : bot.equipOutcome item "hand" with
            | ok u =>
                have hq := placeRetry_blockQueries bot item block dir 3 0
                simp only [resolve] at hb
                simp only [blockQueries] at hq ⊢
                cases fc with
                | none =>
                    simp [rail.placeOnBlock, ensureOrigin, ho, equipItem, hf, he, hb,
                      resolve, JsValue.truthy, hq]
                | some fd =>
                    by_cases hfd : fd = ""
                    · simp [rail.placeOnBlock, ensureOrigin, ho, equipItem, hf, he, hb,
                        resolve, JsValue.truthy, hq, hfd]
                    · cases hv : facingVec fd with
                      | none =>
                          simp [rail.placeOnBlock, ensureOrigin, ho, equipItem, hf, he,
                            hb, resolve, JsValue.truthy, hq, hfd, hv]
                      | some d =>
                          simp [rail.placeOnBlock, ensureOrigin, ho, equipItem, hf, he,
                            hb, resolve, JsValue.truthy, hq, hfd, hv]
            | error e =>
                simp only [resolve] at hb
                simp [rail.placeOnBlock, ensureOrigin, ho, equipItem, hf, he, hb, resolve,
                  JsValue.truthy, blockQueries]
  · simp [walkTo, ensureOrigin, ho, resolve, goToTargets]
  · cases hb : bot.blockAt ((resolve p r u f).floored) with
    | none => simp only [resolve, Vec3.floored] at hb
              simp [rail.toggleBlock, ensureOrigin, ho, resolve, hb, Vec3.floored,
                blockQueries]
    | some block =>
        by_cases hn : block.name == bt
        · cases ha : bot.activateOutcome ((resolve p r u f).floored) with
          | ok u =>
              simp only [resolve, Vec3.floored] at hb ha
              simp [rail.toggleBlock, ensureOrigin, ho, resolve, hb, hn, ha,
                Vec3.floored, blockQueries]
          | error e =>
              simp only [resolve, Vec3.floored] at hb ha
              simp [rail.toggleBlock, ensureOrigin, ho, resolve, hb, hn, ha,
                Vec3.floored, blockQueries]
        · simp only [resolve, Vec3.floored] at hb
          simp [rail.toggleBlock, ensureOrigin, ho, resolve, hb, hn, Vec3.floored,
            blockQueries]
  · induction offs with
    | nil => simp [rail.dig, ensureOrigin, ho, blockQueries]
    | cons o rest ih =>
        have hstep := digStep_blockQueries bot p o
        simp only [blockQueries] at hstep ih ⊢
        simp [rail.dig, ensureOrigin, ho, List.flatMap_cons, hstep, resolve] at ih ⊢
        simpa [resolve] using ih
  · intro hf he
    cases ha : bot.activateItemOutcome with
    | ok u =>
        simp [pourWaterInHole, ensureOrigin, ho, equipItem, hf, he, JsValue.truthy,
          resolve, Vec3.add, Vec3.scaled, lookTargets, ha, Vec3.mk.injEq]
        ring
    | error e =>
        simp [pourWaterInHole, ensureOrigin, ho, equipItem, hf, he, JsValue.truthy,
          resolve, Vec3.add, Vec3.scaled, lookTargets, ha, Vec3.mk.injEq]
        ring

/-- An attempt outcome that rejects with a message not carrying the benign
`blockUpdate` signature. -/
def isNonBenignThrow (o : Except JsErr Unit) : Bool :=
  match o with
  | .error e => !includesBlockUpdate e.message
  | .ok _ => false

/-- An attempt outcome that rejects with the benign `blockUpdate` signature
in its message. -/
def isBenignThrow (o : Except JsErr Unit) : Bool :=
  match o with
  | .error e => includesBlockUpdate e.message
  | .ok _ => false

/-- `equipItem` never calls `bot.placeBlock`. -/
theorem equipItem_placeCalls (bot : MineBot) (item hand : String) :
    placeCallsOf (equipItem bot item hand).2 = [] := by
  cases hf : bot.findItem item with
  | false => simp [equipItem, hf, placeCallsOf]
  | true =>
      cases he : bot.equipOutcome item hand with
      | ok u => simp [equipItem, hf, he, placeCallsOf]
      | error e => simp [equipItem, hf, he, placeCallsOf]

/-- The retry loop attempts `bot.placeBlock` at most `n` times given `n`
remaining attempts. -/
theorem placeRetry_calls_le (bot : MineBot) (item : String) (blk : Block)
    (dir : Vec3) : ∀ n retry,
    (placeCallsOf (placeRetry bot item blk dir n retry).2).length ≤ n := by
  intro n
  induction n with
  | zero => intro retry; simp [placeRetry, placeCallsOf]
  | succ n ih =>
      intro retry
      cases h : bot.placeOutcome retry with
      | ok u => simp [placeRetry, h, placeCallsOf]
      | error e =>
          by_cases hbe : includesBlockUpdate e.message
          · simp [placeRetry, h, hbe, placeCallsOf]
          · have := ih (retry + 1)
            simp only [placeCallsOf] at this ⊢
            simp [placeRetry, h, hbe]
            omega

/-- If every one of the `n` remaining attempts rejects non-benignly, the
retry loop exhausts all `n` attempts and yields `false`. -/
theorem placeRetry_all_nonbenign (bot : MineBot) (item : String) (blk : Block)
    (dir : Vec3) : ∀ n retry,
    (∀ k, k < n → isNonBenignThrow (bot.placeOutcome (retry + k)) = true) →
    (placeRetry bot item blk dir n retry).1 = .ret (.bool false)
    ∧ (placeCallsOf (placeRetry bot item blk dir n retry).2).length = n := by
  intro n
  induction n with
  | zero => intro retry _; simp [placeRetry, placeCallsOf]
  | succ n ih =>
      intro retry h
      have h0 := h 0 (Nat.succ_pos n)
      rw [Nat.add_zero] at h0
      cases hout : bot.placeOutcome retry with
      | ok u => rw [hout] at h0; simp [isNonBenignThrow] at h0
      | error e =>
          rw [hout] at h0
          have hbe : includesBlockUpdate e.message = false := by
            simpa [isNonBenignThrow] using h0
          have hrest := ih (retry + 1) (fun k hk => by
            have hidx : retry + 1 + k = retry + (k + 1) := by omega
            rw [hidx]
            exact h (k + 1) (Nat.succ_lt_succ hk))
          simp only [placeCallsOf] at hrest ⊢
          simp [placeRetry, hout, hbe, hrest.1, hrest.2]

/-- If the first `i` attempts reject non-benignly and attempt `i` rejects
with the benign signature, the retry loop stops right there with `true`,
having attempted exactly `i + 1` placements. -/
theorem placeRetry_benign_hit (bot : MineBot) (item : String) (blk : Block)
    (dir : Vec3) : ∀ n retry i, i < n →
    (∀ k, k < i → isNonBenignThrow (bot.placeOutcome (retry + k)) = true) →
    isBenignThrow (bot.placeOutcome (retry + i)) = true →
    (placeRetry bot item blk dir n retry).1 = .ret (.bool true)
    ∧ (placeCallsOf (placeRetry bot item blk dir n retry).2).length = i + 1 := by
  intro n
  induction n with
  | zero => intro retry i hi; omega
  | succ n ih =>
      intro retry i hi hpre hbenign
      cases i with
      | zero =>
          rw [Nat.add_zero] at hbenign
          cases hout : bot.placeOutcome retry with
          | ok u => rw [hout] at hbenign; simp [isBenignThrow] at hbenign
          | error e =>
              rw [hout] at hbenign
              have hbe : includesBlockUpdate e.message = true := by
                simpa [isBenignThrow] using hbenign
              simp [placeRetry, hout, hbe, placeCallsOf]
      | succ i =>
          have h0 := hpre 0 (Nat.succ_pos i)
          rw [Nat.add_zero] at h0
          cases hout : bot.placeOutcome retry with
          | ok u => rw [hout] at h0; simp [isNonBenignThrow] at h0
          | error e =>
              rw [hout] at h0
              have hbe : includesBlockUpdate e.message = false := by
                simpa [isNonBenignThrow] using h0
              have hrest := ih (retry + 1) i (Nat.lt_of_succ_lt_succ hi)
                (fun k hk => by
                  have hidx : retry + 1 + k = retry + (k + 1) := by omega
                  rw [hidx]
                  exact hpre (k + 1) (Nat.succ_lt_succ hk))
                (by
                  have hidx : retry + 1 + i = retry + (i + 1) := by omega
                  rw [hidx]
                  exact hbenign)
              simp only [placeCallsOf] at hrest ⊢
              simp [placeRetry, hout, hbe, hrest.1, hrest.2]

/-- Under a set origin, an existing support block and a successful equip,
`cane.placeOnBlock` reaches the placement phase: its outcome is the loop's
outcome and its `bot.placeBlock` calls are exactly the loop's. -/
theorem cane_place_reaches_loop (bot : MineBot) (p : Vec3) (yw : ℚ)
    (item : String) (r u f : ℚ) (dir : Vec3) (blk : Block)
    (ho : bot.origin = some ⟨p, yw⟩)
    (hb : bot.blockAt (resolve p r u f) = some blk)
    (hf : bot.findItem item = true)
    (he : bot.equipOutcome item "hand" = Except.ok ()) :
    (cane.placeOnBlock bot item (r, u, f) dir).1 =
      (placeRetry bot item blk dir 3 0).1
    ∧ placeCallsOf (cane.placeOnBlock bot item (r, u, f) dir).2.2 =
        placeCallsOf (placeRetry bot item blk dir 3 0).2 := by
  simp only [resolve] at hb
  simp [cane.placeOnBlock, ensureOrigin, ho, hb, equipItem, hf, he,
    JsValue.truthy, placeCallsOf, List.filterMap_append]

/-- The rail version of the previous lemma, for any facing argument: the
facing block adds only a look and a wait, never a placement. -/
theorem rail_place_reaches_loop (bot : MineBot) (p : Vec3) (yw : ℚ)
    (item : String) (r u f : ℚ) (dir : Vec3) (fc : Option String) (blk : Block)
    (ho : bot.origin = some ⟨p, yw⟩)
    (hb : bot.blockAt (resolve p r u f) = some blk)
    (hf : bot.findItem item = true)
    (he : bot.equipOutcome item "hand" = Except.ok ()) :
    (rail.placeOnBlock bot item (r, u, f) dir fc).1 =
      (placeRetry bot item blk dir 3 0).1
    ∧ placeCallsOf (rail.placeOnBlock bot item (r, u, f) dir fc).2.2 =
        placeCallsOf (placeRetry bot item blk dir 3 0).2 := by
  simp only [resolve] at hb
  cases fc with
  | none =>
      simp [rail.placeOnBlock, ensureOrigin, ho, hb, equipItem, hf, he,
        JsValue.truthy, placeCallsOf, List.filterMap_append]
  | some fd =>
      by_cases hfd : fd = ""
      · simp [rail.placeOnBlock, ensureOrigin, ho, hb, equipItem, hf, he,
          JsValue.truthy, placeCallsOf, List.filterMap_append, hfd]
      · cases hv : facingVec fd with
        | none =>
            simp [rail.placeOnBlock, ensureOrigin, ho, hb, equipItem, hf, he,
              JsValue.truthy, placeCallsOf, List.filterMap_append, hfd, hv]
        | some d =>
            simp [rail.placeOnBlock, ensureOrigin, ho, hb, equipItem, hf, he,
              JsValue.truthy, placeCallsOf, List.filterMap_append, hfd, hv]

/-- C2: whenever `placeOnBlock` (either file) reaches its placement phase,
`bot.placeBlock` is attempted at most 3 times; if all three attempts reject
non-benignly the call returns `false` after exactly 3 attempts; and if the
first benign rejection happens on attempt `i` after non-benign rejections
before it, the call returns `true` immediately, after exactly `i + 1`
attempts. -/
theorem place_retry_policy (bot : MineBot) (p : Vec3) (yw : ℚ) (item : String)
    (r u f : ℚ) (dir : Vec3) (fc : Option String) (blk : Block)
    (ho : bot.origin = some ⟨p, yw⟩)
    (hb : bot.blockAt (resolve p r u f) = some blk)
    (hf : bot.findItem item = true)
    (he : bot.equipOutcome item "hand" = Except.ok ()) :
    ((placeCallsOf (cane.placeOnBlock bot item (r, u, f) dir).2.2).length ≤ 3
      ∧ (placeCallsOf (rail.placeOnBlock bot item (r, u, f) dir fc).2.2).length ≤ 3)
    ∧ ((∀ k, k < 3 → isNonBenignThrow (bot.placeOutcome k) = true) →
        (cane.placeOnBlock bot item (r, u, f) dir).1 = .ret (.bool false)
        ∧ (placeCallsOf (cane.placeOnBlock bot item (r, u, f) dir).2.2).length = 3
        ∧ (rail.placeOnBlock bot item (r, u, f) dir fc).1 = .ret (.bool false)
        ∧ (placeCallsOf (rail.placeOnBlock bot item (r, u, f) dir fc).2.2).length = 3)
    ∧ (∀ i, i < 3 → (∀ k, k < i → isNonBenignThrow (bot.placeOutcome k) = true) →
        isBenignThrow (bot.placeOutcome i) = true →
        (cane.placeOnBlock bot item (r, u, f) dir).1 = .ret (.bool true)
        ∧ (placeCallsOf (cane.placeOnBlock bot item (r, u, f) dir).2.2).length = i + 1
        ∧ (rail.placeOnBlock bot item (r, u, f) dir fc).1 = .ret (.bool true)
        ∧ (placeCallsOf (rail.placeOnBlock bot item (r, u, f) dir fc).2.2).length = i + 1) := by
  obtain ⟨hc1, hc2⟩ := cane_place_reaches_loop bot p yw item r u f dir blk ho hb hf he
  obtain ⟨hr1, hr2⟩ := rail_place_reaches_loop bot p yw item r u f dir fc blk ho hb hf he
  refine ⟨⟨?_, ?_⟩, ?_, ?_⟩
  · rw [hc2]; exact placeRetry_calls_le bot item blk dir 3 0
  · rw [hr2]; exact placeRetry_calls_le bot item blk dir 3 0
  · intro hall
    have := placeRetry_all_nonbenign bot item blk dir 3 0 (fun k hk => by
      rw [Nat.zero_add]; exact hall k hk)
    exact ⟨hc1.trans this.1, hc2 ▸ this.2, hr1.trans this.1, hr2 ▸ this.2⟩
  · intro i hi hpre hbenign
    have := placeRetry_benign_hit bot item blk dir 3 0 i hi (fun k hk => by
      rw [Nat.zero_add]; exact hpre k hk) (by rw [Nat.zero_add]; exact hbenign)
    exact ⟨hc1.trans this.1, hc2 ▸ this.2, hr1.trans this.1, hr2 ▸ this.2⟩

/-- C3: `equipItem` with the item absent returns `false` (with only the
"not found" log — in particular no `bot.equip` attempt) and raises nothing;
with the item present it attempts exactly one equip and returns `true` on
success and `false` when the equip rejects; no exception ever escapes it. -/
theorem equip_item_boundary (bot : MineBot) (item hand : String) :
    (bot.findItem item = false →
      equipItem bot item hand = (.ret (.bool false), [.logMsg (.noItemFound item)]))
    ∧ (bot.findItem item = true →
        equipCallsOf (equipItem bot item hand).2 = [(item, hand)]
        ∧ (∀ u, bot.equipOutcome item hand = Except.ok u →
            (equipItem bot item hand).1 = .ret (.bool true))
        ∧ (∀ e, bot.equipOutcome item hand = Except.error e →
            (equipItem bot item hand).1 = .ret (.bool false)))
    ∧ (equipItem bot item hand).1.isThrown = false := by
  refine ⟨fun hf => by simp [equipItem, hf], fun hf => ⟨?_, ?_, ?_⟩, ?_⟩
  · cases he : bot.equipOutcome item hand with
    | ok u => simp [equipItem, hf, he, equipCallsOf]
    | error e => simp [equipItem, hf, he, equipCallsOf]
  · intro u he; simp [equipItem, hf, he]
  · intro e he; simp [equipItem, hf, he]
  · cases hf : bot.findItem item with
    | false => simp [equipItem, hf, Outcome.isThrown]
    | true =>
        cases he : bot.equipOutcome item hand with
        | ok u => simp [equipItem, hf, he, Outcome.isThrown]
        | error e => simp [equipItem, hf, he, Outcome.isThrown]

/-- A concrete bot for the closed instances below: origin at the world
origin, every item in inventory, a lever at every cell, and every capability
succeeding. -/
def sampleBot : MineBot where
  origin := some ⟨⟨0, 0, 0⟩, 0⟩
  entityPosition := ⟨0, 0, 0⟩
  entityYaw := 0
  entityHeight := 1
  findItem := fun _ => true
  inventoryCounts := fun _ => none
  blockAt := fun _ => some ⟨"lever", ⟨0, 0, 0⟩⟩
  canDigBlock := fun _ => true
  equipOutcome := fun _ _ => .ok ()
  placeOutcome := fun _ => .ok ()
  activateOutcome := fun _ => .ok ()
  activateItemOutcome := .ok ()
  digOutcome := fun _ => .ok ()
  goToOutcome := fun _ => true

/-- C4 counterexample: `toggleBlock` and `dig` do not return a boolean
outcome — both have no `return` statement and resolve to `undefined`, here
exhibited on a concrete bot whose toggle succeeds. -/
theorem primitive_boolean_outcome_counterexample :
    (rail.toggleBlock sampleBot "lever" 0 0 0).1 = .ret .undef
    ∧ (rail.toggleBlock sampleBot "lever" 0 0 0).1 ≠ .ret (.bool true)
    ∧ (rail.toggleBlock sampleBot "lever" 0 0 0).1 ≠ .ret (.bool false)
    ∧ (rail.dig sampleBot [(0, 0, 0)]).1 = .ret .undef
    ∧ (rail.dig sampleBot [(0, 0, 0)]).1 ≠ .ret (.bool true)
    ∧ (rail.dig sampleBot [(0, 0, 0)]).1 ≠ .ret (.bool false) := by
  refine ⟨rfl, by decide, by decide, rfl, by decide, by decide⟩

/-- `equipItem` resolves to a boolean, never a rejection, and always logs. -/
theorem equipItem_outcome_log (bot : MineBot) (item hand : String) :
    (equipItem bot item hand).1.isThrown = false
    ∧ (equipItem bot item hand).1.isBool = true
    ∧ hasLogLine (equipItem bot item hand).2 = true := by
  cases hf : bot.findItem item with
  | false => simp [equipItem, hf, Outcome.isThrown, Outcome.isBool, hasLogLine]
  | true =>
      cases he : bot.equipOutcome item hand with
      | ok u => simp [equipItem, hf, he, Outcome.isThrown, Outcome.isBool, hasLogLine]
      | error e => simp [equipItem, hf, he, Outcome.isThrown, Outcome.isBool, hasLogLine]

/-- The retry loop always resolves to a boolean, never a rejection. -/
theorem placeRetry_outcome (bot : MineBot) (item : String) (blk : Block)
    (dir : Vec3) : ∀ n retry,
    (placeRetry bot item blk dir n retry).1.isThrown = false
    ∧ (placeRetry bot item blk dir n retry).1.isBool = true := by
  intro n
  induction n with
  | zero => intro retry; simp [placeRetry, Outcome.isThrown, Outcome.isBool]
  | succ n ih =>
      intro retry
      cases h : bot.placeOutcome retry with
      | ok u => simp [placeRetry, h, Outcome.isThrown, Outcome.isBool]
      | error e =>
          by_cases hbe : includesBlockUpdate e.message
          · simp [placeRetry, h, hbe, Outcome.isThrown, Outcome.isBool]
          · have := ih (retry + 1)
            simp [placeRetry, h, hbe, this.1, this.2]

/-- `cane.placeOnBlock` resolves to a boolean, never rejects, and logs. -/
theorem cane_place_safe (bot : MineBot) (item : String) (c : ℚ × ℚ × ℚ)
    (dir : Vec3) :
    (cane.placeOnBlock bot item c dir).1.isThrown = false
    ∧ (cane.placeOnBlock bot item c dir).1.isBool = true
    ∧ hasLogLine (cane.placeOnBlock bot item c dir).2.2 = true := by
  have heq := equipItem_outcome_log bot item "hand"
  cases hov : bot.origin with
  | none =>
      cases hb : bot.blockAt ⟨bot.entityPosition.x + c.1,
          bot.entityPosition.y + c.2.1, bot.entityPosition.z - c.2.2⟩ with
      | none =>
          simp [cane.placeOnBlock, ensureOrigin, hov, hb, Outcome.isThrown,
            Outcome.isBool, hasLogLine]
      | some blk =>
          have hloop := placeRetry_outcome bot item blk dir 3 0
          cases hf : bot.findItem item with
          | false =>
              simp [cane.placeOnBlock, ensureOrigin, hov, hb, equipItem, hf,
                JsValue.truthy, Outcome.isThrown, Outcome.isBool, hasLogLine]
          | true =>
              cases he : bot.equipOutcome item "hand" with
              | ok u =>
                  simp [cane.placeOnBlock, ensureOrigin, hov, hb, equipItem, hf, he,
                    JsValue.truthy, hasLogLine]
                  exact placeRetry_outcome _ item blk dir 3 0
              | error e =>
                  simp [cane.placeOnBlock, ensureOrigin, hov, hb, equipItem, hf, he,
                    JsValue.truthy, Outcome.isThrown, Outcome.isBool, hasLogLine]
  | some o =>
      cases hb : bot.blockAt ⟨o.position.x + c.1,
          o.position.y + c.2.1, o.position.z - c.2.2⟩ with
      | none =>
          simp [cane.placeOnBlock, ensureOrigin, hov, hb, Outcome.isThrown,
            Outcome.isBool, hasLogLine]
      | some blk =>
          have hloop := placeRetry_outcome bot item blk dir 3 0
          cases hf : bot.findItem item with
          | false =>
              simp [cane.placeOnBlock, ensureOrigin, hov, hb, equipItem, hf,
                JsValue.truthy, Outcome.isThrown, Outcome.isBool, hasLogLine]
          | true =>
              cases he : bot.equipOutcome item "hand" with
              | ok u =>
                  simp [cane.placeOnBlock, ensureOrigin, hov, hb, equipItem, hf, he,
                    JsValue.truthy, hloop.1, hloop.2, hasLogLine]
              | error e =>
                  simp [cane.placeOnBlock, ensureOrigin, hov, hb, equipItem, hf, he,
                    JsValue.truthy, Outcome.isThrown, Outcome.isBool, hasLogLine]

/-- `rail.placeOnBlock` resolves to a boolean, never rejects, and logs, for
every facing argument. -/
theorem rail_place_safe (bot : MineBot) (item : String) (c : ℚ × ℚ × ℚ)
    (dir : Vec3) (fc : Option String) :
    (rail.placeOnBlock bot item c dir fc).1.isThrown = false
    ∧ (rail.placeOnBlock bot item c dir fc).1.isBool = true
    ∧ hasLogLine (rail.placeOnBlock bot item c dir fc).2.2 = true := by
  cases hov : bot.origin with
  | none =>
      cases hb : bot.blockAt ⟨bot.entityPosition.x + c.1,
          bot.entityPosition.y + c.2.1, bot.entityPosition.z - c.2.2⟩ with
      | none =>
          simp [rail.placeOnBlock, ensureOrigin, hov, hb, Outcome.isThrown,
            Outcome.isBool, hasLogLine]
      | some blk =>
          cases hf : bot.findItem item with
          | false =>
              simp [rail.placeOnBlock, ensureOrigin, hov, hb, equipItem, hf,
                JsValue.truthy, Outcome.isThrown, Outcome.isBool, hasLogLine]
          | true =>
              cases he : bot.equipOutcome item "hand" with
              | ok u =>
                  simp [rail.placeOnBlock, ensureOrigin, hov, hb, equipItem, hf, he,
                    JsValue.truthy, hasLogLine]
                  exact placeRetry_outcome _ item blk dir 3 0
              | error e =>
                  simp [rail.placeOnBlock, ensureOrigin, hov, hb, equipItem, hf, he,
                    JsValue.truthy, Outcome.isThrown, Outcome.isBool, hasLogLine]
  | some o =>
      cases hb : bot.blockAt ⟨o.position.x + c.1,
          o.position.y + c.2.1, o.position.z - c.2.2⟩ with
      | none =>
          simp [rail.placeOnBlock, ensureOrigin, hov, hb, Outcome.isThrown,
            Outcome.isBool, hasLogLine]
      | some blk =>
          cases hf : bot.findItem item with
          | false =>
              simp [rail.placeOnBlock, ensureOrigin, hov, hb, equipItem, hf,
                JsValue.truthy, Outcome.isThrown, Outcome.isBool, hasLogLine]
          | true =>
              cases he : bot.equipOutcome item "hand" with
              | ok u =>
                  simp [rail.placeOnBlock, ensureOrigin, hov, hb, equipItem, hf, he,
                    JsValue.truthy, hasLogLine]
                  exact placeRetry_outcome _ item blk dir 3 0
              | error e =>
                  simp [rail.placeOnBlock, ensureOrigin, hov, hb, equipItem, hf, he,
                    JsValue.truthy, Outcome.isThrown, Outcome.isBool, hasLogLine]

/-- `pourWaterInHole` resolves to a boolean, never rejects, and logs. -/
theorem pour_safe (bot : MineBot) (dx dy dz : ℚ) :
    (pourWaterInHole bot dx dy dz).1.isThrown = false
    ∧ (pourWaterInHole bot dx dy dz).1.isBool = true
    ∧ hasLogLine (pourWaterInHole bot dx dy dz).2.2 = true := by
  cases hov : bot.origin with
  | none =>
      cases hf : bot.findItem "water_bucket" with
      | false =>
          simp [pourWaterInHole, ensureOrigin, hov, equipItem, hf, JsValue.truthy,
            Outcome.isThrown, Outcome.isBool, hasLogLine]
      | true =>
          cases he : bot.equipOutcome "water_bucket" "hand" with
          | ok u =>
              cases ha : bot.activateItemOutcome with
              | ok v =>
                  simp [pourWaterInHole, ensureOrigin, hov, equipItem, hf, he, ha,
                    JsValue.truthy, Outcome.isThrown, Outcome.isBool, hasLogLine]
              | error e =>
                  simp [pourWaterInHole, ensureOrigin, hov, equipItem, hf, he, ha,
                    JsValue.truthy, Outcome.isThrown, Outcome.isBool, hasLogLine]
          | error e =>
              simp [pourWaterInHole, ensureOrigin, hov, equipItem, hf, he,
                JsValue.truthy, Outcome.isThrown, Outcome.isBool, hasLogLine]
  | some o =>
      cases hf : bot.findItem "water_bucket" with
      | false =>
          simp [pourWaterInHole, ensureOrigin, hov, equipItem, hf, JsValue.truthy,
            Outcome.isThrown, Outcome.isBool, hasLogLine]
      | true =>
          cases he : bot.equipOutcome "water_bucket" "hand" with
          | ok u =>
              cases ha : bot.activateItemOutcome with
              | ok v =>
                  simp [pourWaterInHole, ensureOrigin, hov, equipItem, hf, he, ha,
                    JsValue.truthy, Outcome.isThrown, Outcome.isBool, hasLogLine]
              | error e =>
                  simp [pourWaterInHole, ensureOrigin, hov, equipItem, hf, he, ha,
                    JsValue.truthy, Outcome.isThrown, Outcome.isBool, hasLogLine]
          | error e =>
              simp [pourWaterInHole, ensureOrigin, hov, equipItem, hf, he,
                JsValue.truthy, Outcome.isThrown, Outcome.isBool, hasLogLine]

/-- `toggleBlock` resolves to `undefined`, never rejects, and logs. -/
theorem toggle_safe (bot : MineBot) (bt : String) (x y z : ℚ) :
    (rail.toggleBlock bot bt x y z).1 = .ret .undef
    ∧ (rail.toggleBlock bot bt x y z).1.isThrown = false
    ∧ hasLogLine (rail.toggleBlock bot bt x y z).2.2 = true := by
  cases hov : bot.origin with
  | none =>
      cases hb : bot.blockAt ((⟨bot.entityPosition.x + x, bot.entityPosition.y + y,
          bot.entityPosition.z - z⟩ : Vec3).floored) with
      | none =>
          simp [rail.toggleBlock, ensureOrigin, hov, hb, Outcome.isThrown, hasLogLine]
      | some blk =>
          by_cases hn : blk.name == bt
          · cases ha : bot.activateOutcome ((⟨bot.entityPosition.x + x,
                bot.entityPosition.y + y, bot.entityPosition.z - z⟩ : Vec3).floored) with
            | ok u =>
                simp [rail.toggleBlock, ensureOrigin, hov, hb, hn, ha,
                  Outcome.isThrown, hasLogLine]
            | error e =>
                simp [rail.toggleBlock, ensureOrigin, hov, hb, hn, ha,
                  Outcome.isThrown, hasLogLine]
          · simp [rail.toggleBlock, ensureOrigin, hov, hb, hn, Outcome.isThrown,
              hasLogLine]
  | some o =>
      cases hb : bot.blockAt ((⟨o.position.x + x, o.position.y + y,
          o.position.z - z⟩ : Vec3).floored) with
      | none =>
          simp [rail.toggleBlock, ensureOrigin, hov, hb, Outcome.isThrown, hasLogLine]
      | some blk =>
          by_cases hn : blk.name == bt
          · cases ha : bot.activateOutcome ((⟨o.position.x + x, o.position.y + y,
                o.position.z - z⟩ : Vec3).floored) with
            | ok u =>
                simp [rail.toggleBlock, ensureOrigin, hov, hb, hn, ha,
                  Outcome.isThrown, hasLogLine]
            | error e =>
                simp [rail.toggleBlock, ensureOrigin, hov, hb, hn, ha,
                  Outcome.isThrown, hasLogLine]
          · simp [rail.toggleBlock, ensureOrigin, hov, hb, hn, Outcome.isThrown,
              hasLogLine]

/-- `dig` resolves to `undefined`, never rejects, and logs. -/
theorem dig_safe (bot : MineBot) (offs : List (ℚ × ℚ × ℚ)) :
    (rail.dig bot offs).1 = .ret .undef
    ∧ (rail.dig bot offs).1.isThrown = false
    ∧ hasLogLine (rail.dig bot offs).2.2 = true := by
  cases hov : bot.origin with
  | none => simp [rail.dig, ensureOrigin, hov, Outcome.isThrown, hasLogLine]
  | some o => simp [rail.dig, ensureOrigin, hov, Outcome.isThrown, hasLogLine]

/-- C4 amended: every primitive catches its own faults and never lets an
exception escape, and each emits at least one log line; `placeOnBlock` (both
files), `pourWaterInHole` and `equipItem` return a boolean outcome, while
`toggleBlock` and `dig` return no value (they resolve to `undefined`). -/
theorem primitive_fault_policy (bot : MineBot) (item bt hand : String)
    (c : ℚ × ℚ × ℚ) (dir : Vec3) (fc : Option String)
    (offs : List (ℚ × ℚ × ℚ)) (x y z dx dy dz : ℚ) :
    ((equipItem bot item hand).1.isThrown = false
      ∧ (equipItem bot item hand).1.isBool = true
      ∧ hasLogLine (equipItem bot item hand).2 = true)
    ∧ ((cane.placeOnBlock bot item c dir).1.isThrown = false
      ∧ (cane.placeOnBlock bot item c dir).1.isBool = true
      ∧ hasLogLine (cane.placeOnBlock bot item c dir).2.2 = true)
    ∧ ((rail.placeOnBlock bot item c dir fc).1.isThrown = false
      ∧ (rail.placeOnBlock bot item c dir fc).1.isBool = true
      ∧ hasLogLine (rail.placeOnBlock bot item c dir fc).2.2 = true)
    ∧ ((pourWaterInHole bot dx dy dz).1.isThrown = false
      ∧ (pourWaterInHole bot dx dy dz).1.isBool = true
      ∧ hasLogLine (pourWaterInHole bot dx dy dz).2.2 = true)
    ∧ ((rail.toggleBlock bot bt x y z).1 = .ret .undef
      ∧ (rail.toggleBlock bot bt x y z).1.isThrown = false
      ∧ hasLogLine (rail.toggleBlock bot bt x y z).2.2 = true)
    ∧ ((rail.dig bot offs).1 = .ret .undef
      ∧ (rail.dig bot offs).1.isThrown = false
      ∧ hasLogLine (rail.dig bot offs).2.2 = true) :=
  ⟨equipItem_outcome_log bot item hand, cane_place_safe bot item c dir,
   rail_place_safe bot item c dir fc, pour_safe bot dx dy dz,
   toggle_safe bot bt x y z, dig_safe bot offs⟩

/-- C5: with the origin set, if no block is resolvable at the resolved
coordinate, `placeOnBlock` (both files) returns `false` immediately with the
"no supporting block" diagnostic, attempting no equip and no placement; and
if the equip fails, it returns `false` without any placement attempt. -/
theorem place_preconditions (bot : MineBot) (p : Vec3) (yw : ℚ) (item : String)
    (r u f : ℚ) (dir : Vec3) (fc : Option String)
    (ho : bot.origin = some ⟨p, yw⟩) :
    (bot.blockAt (resolve p r u f) = none →
      (cane.placeOnBlock bot item (r, u, f) dir).1 = .ret (.bool false)
      ∧ placeCallsOf (cane.placeOnBlock bot item (r, u, f) dir).2.2 = []
      ∧ equipCallsOf (cane.placeOnBlock bot item (r, u, f) dir).2.2 = []
      ∧ Effect.logMsg (.noSupportBlock (resolve p r u f) item)
          ∈ (cane.placeOnBlock bot item (r, u, f) dir).2.2
      ∧ (rail.placeOnBlock bot item (r, u, f) dir fc).1 = .ret (.bool false)
      ∧ placeCallsOf (rail.placeOnBlock bot item (r, u, f) dir fc).2.2 = []
      ∧ equipCallsOf (rail.placeOnBlock bot item (r, u, f) dir fc).2.2 = []
      ∧ Effect.logMsg (.noSupportBlock (resolve p r u f) item)
          ∈ (rail.placeOnBlock bot item (r, u, f) dir fc).2.2)
    ∧ (∀ blk, bot.blockAt (resolve p r u f) = some blk →
        (equipItem bot item "hand").1 = .ret (.bool false) →
        (cane.placeOnBlock bot item (r, u, f) dir).1 = .ret (.bool false)
        ∧ placeCallsOf (cane.placeOnBlock bot item (r, u, f) dir).2.2 = []
        ∧ (rail.placeOnBlock bot item (r, u, f) dir fc).1 = .ret (.bool false)
        ∧ placeCallsOf (rail.placeOnBlock bot item (r, u, f) dir fc).2.2 = []) := by
  constructor
  · intro hb
    simp only [resolve] at hb ⊢
    simp [cane.placeOnBlock, rail.placeOnBlock, ensureOrigin, ho, hb,
      placeCallsOf, equipCallsOf]
  · intro blk hb hfe
    simp only [resolve] at hb
    cases hf : bot.findItem item with
    | false =>
        simp [cane.placeOnBlock, rail.placeOnBlock, ensureOrigin, ho, hb, equipItem,
          hf, JsValue.truthy, placeCallsOf, equipCallsOf]
    | true =>
        cases he : bot.equipOutcome item "hand" with
        | ok u => simp [equipItem, hf, he] at hfe
        | error e =>
            simp [cane.placeOnBlock, rail.placeOnBlock, ensureOrigin, ho, hb,
              equipItem, hf, he, JsValue.truthy, placeCallsOf, equipCallsOf]

/-- The dig guard `block && bot.canDigBlock(block) && block.name !== 'air'`
of rail.js:299, as a predicate on the queried cell. -/
def digGuard (bot : MineBot) (pos : Vec3) : Bool :=
  match bot.blockAt pos with
  | some b => bot.canDigBlock b && b.name != "air"
  | none => false

/-- One dig iteration digs its cell exactly when the guard holds. -/
theorem digStep_digCalls (bot : MineBot) (origin : Vec3) (o : ℚ × ℚ × ℚ) :
    digCallsOf (rail.digStep bot origin o) =
      if digGuard bot ((resolve origin o.1 o.2.1 o.2.2).floored) then
        [(resolve origin o.1 o.2.1 o.2.2).floored]
      else [] := by
  simp only [resolve, rail.digStep]
  cases hb : bot.blockAt
      ((⟨origin.x + o.1, origin.y + o.2.1, origin.z - o.2.2⟩ : Vec3).floored) with
  | none => simp [digCallsOf, digGuard, hb]
  | some blk =>
      by_cases hd : bot.canDigBlock blk && blk.name != "air"
      · cases hdig : bot.digOutcome
            ((⟨origin.x + o.1, origin.y + o.2.1, origin.z - o.2.2⟩ : Vec3).floored) with
        | ok u => simp [digCallsOf, digGuard, hb, hd, hdig]
        | error e => simp [digCallsOf, digGuard, hb, hd, hdig]
      · simp [digCallsOf, digGuard, hb, hd]

/-- A failing guard leaves the "cannot dig" log in the iteration's trace. -/
theorem digStep_guard_log (bot : MineBot) (origin : Vec3) (o : ℚ × ℚ × ℚ)
    (hg : digGuard bot ((resolve origin o.1 o.2.1 o.2.2).floored) = false) :
    Effect.logMsg (.cannotDig ((resolve origin o.1 o.2.1 o.2.2).floored)
        ((bot.blockAt ((resolve origin o.1 o.2.1 o.2.2).floored)).map Block.name))
      ∈ rail.digStep bot origin o := by
  simp only [resolve, rail.digStep] at hg ⊢
  cases hb : bot.blockAt
      ((⟨origin.x + o.1, origin.y + o.2.1, origin.z - o.2.2⟩ : Vec3).floored) with
  | none => simp [hb]
  | some blk =>
      simp only [digGuard, hb] at hg
      simp [hb, hg]

/-- A dig rejection under a passing guard leaves the dig-error log in the
iteration's trace. -/
theorem digStep_error_log (bot : MineBot) (origin : Vec3) (o : ℚ × ℚ × ℚ)
    (e : JsErr)
    (hg : digGuard bot ((resolve origin o.1 o.2.1 o.2.2).floored) = true)
    (he : bot.digOutcome ((resolve origin o.1 o.2.1 o.2.2).floored) =
      Except.error e) :
    Effect.logMsg (.digError ((resolve origin o.1 o.2.1 o.2.2).floored) e.message)
      ∈ rail.digStep bot origin o := by
  simp only [resolve, rail.digStep] at hg he ⊢
  cases hb : bot.blockAt
      ((⟨origin.x + o.1, origin.y + o.2.1, origin.z - o.2.2⟩ : Vec3).floored) with
  | none => simp [digGuard, hb] at hg
  | some blk =>
      simp only [digGuard, hb] at hg
      simp [hb, hg, he]

/-- C6: with the origin set, `dig` processes every offset of its list
independently and in order — the cells actually dug are exactly the floored
resolutions of the offsets whose block exists, is diggable, and is not air
(so earlier per-offset failures never abort later offsets); every offset the
guard rejects gets its "cannot dig" log, and every dig rejection gets its
error log and still leaves the remaining offsets processed. -/
theorem dig_batch_semantics (bot : MineBot) (p : Vec3) (yw : ℚ)
    (offs : List (ℚ × ℚ × ℚ)) (ho : bot.origin = some ⟨p, yw⟩) :
    digCallsOf (rail.dig bot offs).2.2 =
      (offs.filter (fun o => digGuard bot ((resolve p o.1 o.2.1 o.2.2).floored))).map
        (fun o => (resolve p o.1 o.2.1 o.2.2).floored)
    ∧ (∀ o ∈ offs,
        (digGuard bot ((resolve p o.1 o.2.1 o.2.2).floored) = false →
          Effect.logMsg (.cannotDig ((resolve p o.1 o.2.1 o.2.2).floored)
              ((bot.blockAt ((resolve p o.1 o.2.1 o.2.2).floored)).map Block.name))
            ∈ (rail.dig bot offs).2.2)
        ∧ (∀ e, digGuard bot ((resolve p o.1 o.2.1 o.2.2).floored) = true →
            bot.digOutcome ((resolve p o.1 o.2.1 o.2.2).floored) = Except.error e →
            Effect.logMsg (.digError ((resolve p o.1 o.2.1 o.2.2).floored) e.message)
              ∈ (rail.dig bot offs).2.2)) := by
  constructor
  · induction offs with
    | nil => simp [rail.dig, ensureOrigin, ho, digCallsOf]
    | cons o rest ih =>
        have hstep := digStep_digCalls bot p o
        simp only [digCallsOf] at hstep ih ⊢
        simp only [rail.dig, ensureOrigin, ho] at ih ⊢
        simp [List.flatMap_cons, List.filterMap_append, hstep, List.filter_cons] at ih ⊢
        by_cases hg : digGuard bot ((resolve p o.1 o.2.1 o.2.2).floored)
        · simp [hg, ih]
        · simp [hg, ih]
  · intro o hmem
    have hgoal : (rail.dig bot offs).2.2 =
        Effect.logMsg .digListStart :: offs.flatMap (rail.digStep bot p) := by
      simp [rail.dig, ensureOrigin, ho]
    constructor
    · intro hg
      have hstep := digStep_guard_log bot p o hg
      rw [hgoal]
      exact List.mem_cons_of_mem _ (List.mem_flatMap.mpr ⟨o, hmem, hstep⟩)
    · intro e hg he
      have hstep := digStep_error_log bot p o e hg he
      rw [hgoal]
      exact List.mem_cons_of_mem _ (List.mem_flatMap.mpr ⟨o, hmem, hstep⟩)

/-- C7: the provisioning loop issues exactly one `/give` chat request per
required entry whose live count is strictly below its requirement — in table
order, each for exactly the shortfall `required - current` — and no request
at all for an entry whose count meets the requirement; every requested
quantity is strictly positive (it never reduces holdings), and the two
machines' `acquireItems` produce exactly the loop's requests over their
literal tables. -/
theorem provisioner_shortfall (bot : MineBot) (required : List (String × Int)) :
    chatCallsOf (acquireItemsLoop bot required) =
      (required.filter
          (fun en => (bot.inventoryCounts en.1).getD 0 < en.2)).map
        (fun en => giveCmd en.1 (en.2 - (bot.inventoryCounts en.1).getD 0))
    ∧ ((required.filter
          (fun en => (bot.inventoryCounts en.1).getD 0 < en.2)).all
        (fun en => 0 < en.2 - (bot.inventoryCounts en.1).getD 0)) = true
    ∧ chatCallsOf (cane.acquireItems bot).2 =
        chatCallsOf (acquireItemsLoop bot cane.requiredItems)
    ∧ chatCallsOf (rail.acquireItems bot).2 =
        chatCallsOf (acquireItemsLoop bot rail.requiredItems) := by
  refine ⟨?_, ?_, ?_, ?_⟩
  · induction required with
    | nil => simp [acquireItemsLoop, chatCallsOf]
    | cons en rest ih =>
        by_cases hlt : (bot.inventoryCounts en.1).getD 0 < en.2
        · simp only [chatCallsOf, acquireItemsLoop] at ih ⊢
          simp [List.flatMap_cons, List.filter_cons, hlt, ih]
        · simp only [chatCallsOf, acquireItemsLoop] at ih ⊢
          simp [List.flatMap_cons, List.filter_cons, hlt, ih]
  · rw [List.all_eq_true]
    intro en hen
    have := List.of_mem_filter hen
    simp only [decide_eq_true_eq] at this ⊢
    omega
  · simp [cane.acquireItems, chatCallsOf]
  · simp [rail.acquireItems, chatCallsOf]

/-- C8: with the origin set, `toggleBlock` resolves the offset, floors it to
an integer cell, and issues exactly one `bot.activateBlock` call there when
the occupying block's name equals the expected type exactly; a name mismatch
or a missing block issues no activation and logs the "not found" line; an
activation rejection is caught after that single call (no retry) and logged,
with the call still resolving to `undefined`. -/
theorem toggle_guard (bot : MineBot) (p : Vec3) (yw : ℚ) (bt : String)
    (x y z : ℚ) (ho : bot.origin = some ⟨p, yw⟩) :
    (∀ b, bot.blockAt ((resolve p x y z).floored) = some b → b.name = bt →
      activateCallsOf (rail.toggleBlock bot bt x y z).2.2 = [(resolve p x y z).floored])
    ∧ (∀ b, bot.blockAt ((resolve p x y z).floored) = some b → b.name ≠ bt →
        activateCallsOf (rail.toggleBlock bot bt x y z).2.2 = []
        ∧ Effect.logMsg (.toggleNotFound bt x y z ((resolve p x y z).floored)
            (some b.name)) ∈ (rail.toggleBlock bot bt x y z).2.2)
    ∧ (bot.blockAt ((resolve p x y z).floored) = none →
        activateCallsOf (rail.toggleBlock bot bt x y z).2.2 = []
        ∧ Effect.logMsg (.toggleNotFound bt x y z ((resolve p x y z).floored) none)
            ∈ (rail.toggleBlock bot bt x y z).2.2)
    ∧ (∀ b e, bot.blockAt ((resolve p x y z).floored) = some b → b.name = bt →
        bot.activateOutcome ((resolve p x y z).floored) = Except.error e →
        (rail.toggleBlock bot bt x y z).1 = .ret .undef
        ∧ activateCallsOf (rail.toggleBlock bot bt x y z).2.2 = [(resolve p x y z).floored]
        ∧ Effect.logMsg (.activateError ((resolve p x y z).floored) e.message)
            ∈ (rail.toggleBlock bot bt x y z).2.2) := by
  refine ⟨?_, ?_, ?_, ?_⟩
  · intro b hb hn
    simp only [resolve, Vec3.floored] at hb ⊢
    cases ha : bot.activateOutcome ((⟨p.x + x, p.y + y, p.z - z⟩ : Vec3).floored) with
    | ok u =>
        simp only [Vec3.floored] at ha
        simp [rail.toggleBlock, ensureOrigin, ho, hb, hn, ha, activateCallsOf,
          Vec3.floored]
    | error e =>
        simp only [Vec3.floored] at ha
        simp [rail.toggleBlock, ensureOrigin, ho, hb, hn, ha, activateCallsOf,
          Vec3.floored]
  · intro b hb hn
    simp only [resolve, Vec3.floored] at hb ⊢
    simp [rail.toggleBlock, ensureOrigin, ho, hb, hn, activateCallsOf, Vec3.floored]
  · intro hb
    simp only [resolve, Vec3.floored] at hb ⊢
    simp [rail.toggleBlock, ensureOrigin, ho, hb, activateCallsOf, Vec3.floored]
  · intro b e hb hn ha
    simp only [resolve, Vec3.floored] at hb ha ⊢
    simp [rail.toggleBlock, ensureOrigin, ho, hb, hn, ha, activateCallsOf,
      Vec3.floored]

/-- The retry loop depends on the bot only through `placeOutcome`. -/
theorem placeRetry_congr (b1 b2 : MineBot) (h : b1.placeOutcome = b2.placeOutcome)
    (item : String) (blk : Block) (dir : Vec3) : ∀ n retry,
    placeRetry b1 item blk dir n retry = placeRetry b2 item blk dir n retry := by
  intro n
  induction n with
  | zero => intro retry; simp [placeRetry]
  | succ n ih =>
      intro retry
      simp only [placeRetry, h, ih (retry + 1)]

/-- C10: coordinate resolution is independent of the stored origin heading —
two bots identical except for the yaw captured in their origin frame produce
the same outcome and the same effect trace (hence the same resolved
coordinates) for every primitive; in particular `pourWaterInHole`, which
reads the yaw into a dead local, applies fixed world axes. -/
theorem yaw_independence (bot : MineBot) (p : Vec3) (y1 y2 : ℚ)
    (item bt : String) (c : ℚ × ℚ × ℚ) (dir : Vec3) (fc : Option String)
    (offs : List (ℚ × ℚ × ℚ)) (x y z dx dy dz : ℚ) :
    ((cane.placeOnBlock { bot with origin := some ⟨p, y1⟩ } item c dir).1 =
        (cane.placeOnBlock { bot with origin := some ⟨p, y2⟩ } item c dir).1
      ∧ (cane.placeOnBlock { bot with origin := some ⟨p, y1⟩ } item c dir).2.2 =
        (cane.placeOnBlock { bot with origin := some ⟨p, y2⟩ } item c dir).2.2)
    ∧ ((rail.placeOnBlock { bot with origin := some ⟨p, y1⟩ } item c dir fc).1 =
        (rail.placeOnBlock { bot with origin := some ⟨p, y2⟩ } item c dir fc).1
      ∧ (rail.placeOnBlock { bot with origin := some ⟨p, y1⟩ } item c dir fc).2.2 =
        (rail.placeOnBlock { bot with origin := some ⟨p, y2⟩ } item c dir fc).2.2)
    ∧ ((walkTo { bot with origin := some ⟨p, y1⟩ } dx dy dz).1 =
        (walkTo { bot with origin := some ⟨p, y2⟩ } dx dy dz).1
      ∧ (walkTo { bot with origin := some ⟨p, y1⟩ } dx dy dz).2.2 =
        (walkTo { bot with origin := some ⟨p, y2⟩ } dx dy dz).2.2)
    ∧ ((rail.toggleBlock { bot with origin := some ⟨p, y1⟩ } bt x y z).1 =
        (rail.toggleBlock { bot with origin := some ⟨p, y2⟩ } bt x y z).1
      ∧ (rail.toggleBlock { bot with origin := some ⟨p, y1⟩ } bt x y z).2.2 =
        (rail.toggleBlock { bot with origin := some ⟨p, y2⟩ } bt x y z).2.2)
    ∧ ((rail.dig { bot with origin := some ⟨p, y1⟩ } offs).1 =
        (rail.dig { bot with origin := some ⟨p, y2⟩ } offs).1
      ∧ (rail.dig { bot with origin := some ⟨p, y1⟩ } offs).2.2 =
        (rail.dig { bot with origin := some ⟨p, y2⟩ } offs).2.2)
    ∧ ((pourWaterInHole { bot with origin := some ⟨p, y1⟩ } dx dy dz).1 =
        (pourWaterInHole { bot with origin := some ⟨p, y2⟩ } dx dy dz).1
      ∧ (pourWaterInHole { bot with origin := some ⟨p, y1⟩ } dx dy dz).2.2 =
        (pourWaterInHole { bot with origin := some ⟨p, y2⟩ } dx dy dz).2.2) :=
  by
  have hretry : ∀ blk,
      placeRetry { bot with origin := some ⟨p, y1⟩ } item blk dir 3 0 =
        placeRetry { bot with origin := some ⟨p, y2⟩ } item blk dir 3 0 :=
    fun blk => placeRetry_congr _ _ rfl item blk dir 3 0
  refine ⟨?_, ?_, ⟨rfl, rfl⟩, ?_, ⟨rfl, rfl⟩, ?_⟩
  · cases hb : bot.blockAt ⟨p.x + c.1, p.y + c.2.1, p.z - c.2.2⟩ with
    | none => constructor <;> simp [cane.placeOnBlock, ensureOrigin, hb]
    | some blk =>
        cases hf : bot.findItem item with
        | false =>
            constructor <;>
              simp [cane.placeOnBlock, ensureOrigin, hb, equipItem, hf,
                JsValue.truthy]
        | true =>
            cases he : bot.equipOutcome item "hand" with
            | ok u =>
                constructor <;>
                  simp [cane.placeOnBlock, ensureOrigin, hb, equipItem, hf, he,
                    JsValue.truthy, hretry blk]
            | error e =>
                constructor <;>
                  simp [cane.placeOnBlock, ensureOrigin, hb, equipItem, hf, he,
                    JsValue.truthy]
  · cases hb : bot.blockAt ⟨p.x + c.1, p.y + c.2.1, p.z - c.2.2⟩ with
    | none => constructor <;> simp [rail.placeOnBlock, ensureOrigin, hb]
    | some blk =>
        cases hf : bot.findItem item with
        | false =>
            constructor <;>
              simp [rail.placeOnBlock, ensureOrigin, hb, equipItem, hf,
                JsValue.truthy]
        | true =>
            cases he : bot.equipOutcome item "hand" with
            | ok u =>
                constructor <;>
                  simp [rail.placeOnBlock, ensureOrigin, hb, equipItem, hf, he,
                    JsValue.truthy, hretry blk]
            | error e =>
                constructor <;>
                  simp [rail.placeOnBlock, ensureOrigin, hb, equipItem, hf, he,
                    JsValue.truthy]
  · cases hb : bot.blockAt ((⟨p.x + x, p.y + y, p.z - z⟩ : Vec3).floored) with
    | none => constructor <;> simp [rail.toggleBlock, ensureOrigin, hb]
    | some blk =>
        by_cases hn : blk.name == bt
        · cases ha : bot.activateOutcome ((⟨p.x + x, p.y + y,
              p.z - z⟩ : Vec3).floored) with
          | ok u => constructor <;> simp [rail.toggleBlock, ensureOrigin, hb, hn, ha]
          | error e =>
              constructor <;> simp [rail.toggleBlock, ensureOrigin, hb, hn, ha]
        · constructor <;> simp [rail.toggleBlock, ensureOrigin, hb, hn]
  · cases hf : bot.findItem "water_bucket" with
    | false =>
        constructor <;>
          simp [pourWaterInHole, ensureOrigin, equipItem, hf, JsValue.truthy]
    | true =>
        cases he : bot.equipOutcome "water_bucket" "hand" with
        | ok u =>
            cases ha : bot.activateItemOutcome with
            | ok v =>
                constructor <;>
                  simp [pourWaterInHole, ensureOrigin, equipItem, hf, he, ha,
                    JsValue.truthy]
            | error e =>
                constructor <;>
                  simp [pourWaterInHole, ensureOrigin, equipItem, hf, he, ha,
                    JsValue.truthy]
        | error e =>
            constructor <;>
              simp [pourWaterInHole, ensureOrigin, equipItem, hf, he, JsValue.truthy]

/-- A bot whose every placement attempt rejects with a non-benign message. -/
def failPlaceBot : MineBot :=
  { sampleBot with placeOutcome := fun _ => .error ⟨some "fail"⟩ }

/-- A bot with an empty inventory. -/
def emptyInvBot : MineBot :=
  { sampleBot with findItem := fun _ => false }

/-- A bot in an unloaded world: every block lookup resolves to nothing. -/
def voidBot : MineBot :=
  { sampleBot with blockAt := fun _ => none }

/-- Witness for the resolution mapping: on the sample bot, the origin
hypothesis holds and `placeOnBlock (0, 0, 1)` queries exactly the resolved
coordinate. -/
theorem resolve_mapping_witness :
    sampleBot.origin = some ⟨⟨0, 0, 0⟩, 0⟩
    ∧ blockQueries (cane.placeOnBlock sampleBot "chest" (0, 0, 1) ⟨0, 1, 0⟩).2.2 =
        [resolve ⟨0, 0, 0⟩ 0 0 1] :=
  ⟨rfl,
   (resolve_mapping_all_primitives sampleBot ⟨0, 0, 0⟩ 0 "chest" "lever" 0 0 1
      ⟨0, 1, 0⟩ none [(0, 0, 1)] rfl).2.1⟩

/-- Witness for the retry policy: on a bot whose placements always reject
non-benignly, the placement-phase hypotheses hold and `placeOnBlock` returns
`false`. -/
theorem place_retry_policy_witness :
    failPlaceBot.blockAt (resolve ⟨0, 0, 0⟩ 0 0 1) = some ⟨"lever", ⟨0, 0, 0⟩⟩
    ∧ (cane.placeOnBlock failPlaceBot "chest" (0, 0, 1) ⟨0, 1, 0⟩).1 =
        .ret (.bool false) :=
  ⟨rfl,
   ((place_retry_policy failPlaceBot ⟨0, 0, 0⟩ 0 "chest" 0 0 1 ⟨0, 1, 0⟩ none
        ⟨"lever", ⟨0, 0, 0⟩⟩ rfl rfl rfl rfl).2.1 (fun _ _ => rfl)).1⟩

/-- Witness for the equip boundary: on a bot with an empty inventory, the
absence hypothesis holds and `equipItem` returns `false` with only the
"not found" log. -/
theorem equip_item_boundary_witness :
    emptyInvBot.findItem "torch" = false
    ∧ equipItem emptyInvBot "torch" "hand" =
        (.ret (.bool false), [.logMsg (.noItemFound "torch")]) :=
  ⟨rfl, (equip_item_boundary emptyInvBot "torch" "hand").1 rfl⟩

/-- Witness for the fail-fast preconditions: on a bot with no resolvable
blocks, the missing-support hypothesis holds and `placeOnBlock` fails. -/
theorem place_preconditions_witness :
    voidBot.origin = some ⟨⟨0, 0, 0⟩, 0⟩
    ∧ voidBot.blockAt (resolve ⟨0, 0, 0⟩ 0 0 1) = none
    ∧ (cane.placeOnBlock voidBot "chest" (0, 0, 1) ⟨0, 1, 0⟩).1 = .ret (.bool false) :=
  ⟨rfl, rfl,
   ((place_preconditions voidBot ⟨0, 0, 0⟩ 0 "chest" 0 0 1 ⟨0, 1, 0⟩ none rfl).1 rfl).1⟩

/-- Witness for the dig batch semantics: on the sample bot, the origin
hypothesis holds and the dug cells of a one-offset list are its guarded
floored resolutions. -/
theorem dig_batch_witness :
    sampleBot.origin = some ⟨⟨0, 0, 0⟩, 0⟩
    ∧ digCallsOf (rail.dig sampleBot [(0, 0, 1)]).2.2 =
        (([(0, 0, 1)] : List (ℚ × ℚ × ℚ)).filter
            (fun o => digGuard sampleBot ((resolve ⟨0, 0, 0⟩ o.1 o.2.1 o.2.2).floored))).map
          (fun o => (resolve ⟨0, 0, 0⟩ o.1 o.2.1 o.2.2).floored) :=
  ⟨rfl, (dig_batch_semantics sampleBot ⟨0, 0, 0⟩ 0 [(0, 0, 1)] rfl).1⟩

/-- Witness for the toggle guard: on the sample bot (a lever everywhere),
the match hypotheses hold and `toggleBlock` issues exactly one activation at
the floored resolved cell. -/
theorem toggle_guard_witness :
    sampleBot.blockAt ((resolve ⟨0, 0, 0⟩ 0 0 0).floored) = some ⟨"lever", ⟨0, 0, 0⟩⟩
    ∧ activateCallsOf (rail.toggleBlock sampleBot "lever" 0 0 0).2.2 =
        [(resolve ⟨0, 0, 0⟩ 0 0 0).floored] :=
  ⟨rfl,
   (toggle_guard sampleBot ⟨0, 0, 0⟩ 0 "lever" 0 0 0 rfl).1 ⟨"lever", ⟨0, 0, 0⟩⟩ rfl rfl⟩
